import Mathlib

/-!
Shallow embedding of `src/plot_benchmarks.py` (benchmark report generator).

Python strings are modelled as Lean `String` / `List Char`; Python floats
(here: benchmark statistics parsed from JSON and the arithmetic on them) are
modelled as exact rationals `ℚ` — every numeric computation exercised below is
exact decimal arithmetic where the two agree.  Python `dict` (insertion
ordered, assignment to an existing key overwrites the value in place, keeping
the key's original position) is modelled as an association list with
`dictInsert` / `dictGet`.  Fallible operations (float division by zero raises
`ZeroDivisionError` in Python) return `Except`.
-/

namespace PlotBenchmarks

/-- Python `s.split(sep)` for a one-character separator: splits on every
occurrence, keeping empty chunks; `"".split(sep) == [""]`. -/
def splitOnChar (c : Char) : List Char → List (List Char)
  | [] => [[]]
  | x :: xs =>
    if x = c then [] :: splitOnChar c xs
    else
      match splitOnChar c xs with
      | [] => [[x]]
      | h :: t => (x :: h) :: t

/-- Python `s.split(sep, maxsplit)` for a one-character separator: at most `n`
splits, scanning left to right; the remainder after the `n`-th split is kept
verbatim as the final chunk. -/
def splitMax (c : Char) (n : Nat) (l : List Char) : List (List Char) :=
  match n, l with
  | _, [] => [[]]
  | 0, xs => [xs]
  | n + 1, x :: xs =>
    if x = c then [] :: splitMax c n xs
    else
      match splitMax c (n + 1) xs with
      | [] => [[x]]
      | h :: t => (x :: h) :: t

/-- Python `needle in hay` substring containment test. -/
def strContains (hay needle : String) : Bool :=
  (List.range (hay.toList.length + 1)).any
    (fun i => needle.toList.isPrefixOf (hay.toList.drop i))

/-- Python `s.startswith(pre)`. -/
def pyStartswith (s pre : String) : Bool :=
  pre.toList.isPrefixOf s.toList

/-- Python string `<=`: lexicographic comparison by code point. -/
def lexLeCh : List Char → List Char → Bool
  | [], _ => true
  | _ :: _, [] => false
  | a :: as, b :: bs =>
    if a.toNat < b.toNat then true
    else if b.toNat < a.toNat then false
    else lexLeCh as bs

/-- The ordering used by Python `sorted` on strings. -/
def strLe (a b : String) : Prop := lexLeCh a.toList b.toList = true

instance : DecidableRel strLe :=
  fun a b => inferInstanceAs (Decidable (lexLeCh a.toList b.toList = true))

/-- Index of the last occurrence of `c` in `l` (Python `str.rfind`, as an
`Option`). -/
def lastIdx (c : Char) : List Char → Option Nat
  | [] => none
  | x :: xs =>
    match lastIdx c xs with
    | some i => some (i + 1)
    | none => if x = c then some 0 else none

/-- `os.path.basename` on a POSIX path: everything after the last `/`. -/
def basenameL (l : List Char) : List Char :=
  (splitOnChar '/' l).getLastD []

/-- The stem component of `os.path.splitext`, for inputs containing no `/`
(the script always applies it to a basename): cut at the last `.` unless all
characters before that dot are dots. -/
def stemOf (l : List Char) : List Char :=
  match lastIdx '.' l with
  | none => l
  | some d => if (l.take d).any (fun ch => decide (ch ≠ '.')) then l.take d else l

/-- `os.path.splitext(os.path.basename(filename))[0]`: the benchmark group
name derived from a result file's path (lines 16–17 of the script). -/
def benchName (filename : String) : String :=
  String.mk (stemOf (basenameL filename.toList))

/-- `result['command'].split('/')[-1]`: the implementation display name
(line 25 of the script). -/
def implName (command : String) : String :=
  String.mk ((splitOnChar '/' command.toList).getLastD [])

/-- `benchmark.split('_', 2)[-1]`: the x-axis display label (line 69 of the
script). -/
def labelOf (b : String) : String :=
  String.mk ((splitMax '_' 2 b.toList).getLastD [])

/-- The four statistics recorded per implementation (lines 26–31). -/
structure Stats where
  mean : ℚ
  stddev : ℚ
  min : ℚ
  max : ℚ
deriving DecidableEq

/-- One element of a result file's `results` array. -/
structure Entry where
  command : String
  mean : ℚ
  stddev : ℚ
  min : ℚ
  max : ℚ
deriving DecidableEq

def entryStats (e : Entry) : Stats :=
  ⟨e.mean, e.stddev, e.min, e.max⟩

/-- The parsed contents of one result file. -/
structure FileData where
  results : List Entry
deriving DecidableEq

/-- Python `dict`, as an insertion-ordered association list. -/
abbrev Dict (β : Type) := List (String × β)

/-- `d[k] = v`: overwrite in place if the key exists (keeping its original
position), otherwise append. -/
def dictInsert {β : Type} (k : String) (v : β) : Dict β → Dict β
  | [] => [(k, v)]
  | (k', v') :: t => if k' = k then (k, v) :: t else (k', v') :: dictInsert k v t

/-- `d.get(k)`. -/
def dictGet {β : Type} (k : String) : Dict β → Option β
  | [] => none
  | (k', v') :: t => if k' = k then some v' else dictGet k t

/-- The inner loop of `load_benchmark_results` (lines 23–31): build one
benchmark group's mapping from implementation display name to statistics. -/
def buildBenchmarkData (entries : List Entry) : Dict Stats :=
  entries.foldl (fun d e => dictInsert (implName e.command) (entryStats e) d) []

/-- `load_benchmark_results` (lines 12–35), over an explicit list of
(path, parsed contents) pairs standing for the files matched by the glob
pattern, in enumeration order. -/
def load_benchmark_results (files : List (String × FileData)) : Dict (Dict Stats) :=
  files.foldl
    (fun r f => dictInsert (benchName f.1) (buildBenchmarkData f.2.results) r) []

/-- One iteration of the implementation-pairing loop (lines 75–79): a name
containing `sstr` updates the sstr slot; otherwise a name containing `std`
updates the std slot. -/
def pairStep (p : Option String × Option String) (name : String) :
    Option String × Option String :=
  if strContains name "sstr" then (some name, p.2)
  else if strContains name "std" then (p.1, some name)
  else p

/-- Lines 71–79: scan the group's keys in iteration order, last match wins for
each slot.  (The Python variables start at `None` and are overwritten.) -/
def findPair (keys : List String) : Option String × Option String :=
  keys.foldl pairStep (none, none)

/-- Whether line 81's `if sstr_impl and std_impl:` succeeds.  An assigned slot
always holds a nonempty string (it contains `sstr` resp. `std`), so Python
truthiness coincides with being assigned at all. -/
def isPaired (results : Dict (Dict Stats)) (b : String) : Bool :=
  let keys := ((dictGet b results).getD []).map Prod.fst
  (findPair keys).1.isSome && (findPair keys).2.isSome

/-- Lines 64–83 of `_plot_benchmark_group`: accumulate the x-axis labels and
the two mean series (converted to milliseconds) over the category's group
names, in order.  `results[benchmark]` is totalised with `.getD []`; the
caller (`create_comparison_plot`) only passes keys of `results`.  The label is
appended unconditionally (line 69) before the pairing check (line 81). -/
def panelData (results : Dict (Dict Stats)) : List String → List String × List ℚ × List ℚ
  | [] => ([], [], [])
  | b :: bs =>
    let rest := panelData results bs
    let group := (dictGet b results).getD []
    match findPair (group.map Prod.fst) with
    | (some si, some di) =>
      (labelOf b :: rest.1,
       ((dictGet si group).getD ⟨0, 0, 0, 0⟩).mean * 1000 :: rest.2.1,
       ((dictGet di group).getD ⟨0, 0, 0, 0⟩).mean * 1000 :: rest.2.2)
    | _ => (labelOf b :: rest.1, rest.2.1, rest.2.2)

/-- Line 94: `((sstr_means[i] - std_means[i]) / std_means[i]) * 100`.  Python
float division by zero raises `ZeroDivisionError`; otherwise the quotient. -/
def diffPercent (sstrMs stdMs : ℚ) : Except String ℚ :=
  if stdMs = 0 then Except.error "ZeroDivisionError"
  else Except.ok (((sstrMs - stdMs) / stdMs) * 100)

/-- Nearest multiple of one tenth, ties to even (the rounding of Python's
`"{:.1f}"` format, idealised over exact rationals). -/
def round1f (q : ℚ) : ℤ :=
  let x := q * 10
  let f := ⌊x⌋
  if x - f < 1 / 2 then f
  else if x - f > 1 / 2 then f + 1
  else if f % 2 = 0 then f else f + 1

/-- Python `f"{q:.1f}"` over exact rationals. -/
def format1f (q : ℚ) : String :=
  let n := round1f q
  (if n < 0 then "-" else "") ++ toString (n.natAbs / 10) ++ "." ++ toString (n.natAbs % 10)

/-- Lines 94–98: the annotation drawn for one retained cluster — its text
(`f"{diff_percent:.1f}%"`) and its color (`'green' if diff_percent < 0 else
'red'`). -/
def annotate (sstrMs stdMs : ℚ) : Except String (String × String) :=
  (diffPercent sstrMs stdMs).map
    (fun diff => (format1f diff ++ "%", if diff < 0 then "green" else "red"))

/-- The annotation loop of lines 93–98 over the paired mean series: one
(text, color) pair per cluster, in order; the first `ZeroDivisionError`
escapes the loop (as the Python exception does). -/
def annotateList : List (ℚ × ℚ) → Except String (List (String × String))
  | [] => Except.ok []
  | p :: ps =>
    match annotate p.1 p.2 with
    | Except.error e => Except.error e
    | Except.ok a =>
      match annotateList ps with
      | Except.error e => Except.error e
      | Except.ok rest => Except.ok (a :: rest)

/-- Lines 93–98: the annotations of a whole panel, in cluster order (the loop
indexes `sstr_means[i]` and `std_means[i]` for `i < len(sstr_means)`; the two
series always have equal length, both being appended under the same guard). -/
def panelAnnotations (results : Dict (Dict Stats)) (benchmarks : List String) :
    Except String (List (String × String)) :=
  let d := panelData results benchmarks
  annotateList (d.2.1.zip d.2.2)

/-- `results.keys()` in iteration order. -/
def benchKeys (results : Dict (Dict Stats)) : List String :=
  results.map Prod.fst

/-- Line 39: `benchmarks = sorted(results.keys())`. -/
def sortedBenchmarks (results : Dict (Dict Stats)) : List String :=
  List.insertionSort strLe (benchKeys results)

/-- Line 42. -/
def copy_benchmarks (results : Dict (Dict Stats)) : List String :=
  (sortedBenchmarks results).filter (fun b => pyStartswith b "results_copy")

/-- Line 43. -/
def append_benchmarks (results : Dict (Dict Stats)) : List String :=
  (sortedBenchmarks results).filter (fun b => pyStartswith b "results_append")

/-- Line 44. -/
def format_benchmarks (results : Dict (Dict Stats)) : List String :=
  (sortedBenchmarks results).filter (fun b => pyStartswith b "results_format")

/-- Concrete aggregated results: one group whose sstr mean is 0.0010 s and
whose std mean is 0.0020 s. -/
def exNeg : Dict (Dict Stats) :=
  [("results_copy_small",
    [("sstr_copy_small", ⟨1 / 1000, 0, 0, 0⟩),
     ("std_copy_small", ⟨2 / 1000, 0, 0, 0⟩)])]

/-- Concrete aggregated results: the two means of `exNeg` swapped. -/
def exSwap : Dict (Dict Stats) :=
  [("results_copy_small",
    [("sstr_copy_small", ⟨2 / 1000, 0, 0, 0⟩),
     ("std_copy_small", ⟨1 / 1000, 0, 0, 0⟩)])]

/-- Concrete aggregated results: a paired group whose std mean is exactly 0. -/
def exZero : Dict (Dict Stats) :=
  [("results_copy_zero",
    [("sstr_copy_zero", ⟨1 / 1000, 0, 0, 0⟩),
     ("std_copy_zero", ⟨0, 0, 0, 0⟩)])]

/-- Concrete aggregated results: a group with an sstr-matching implementation
but no std-matching one. -/
def exOnlySstr : Dict (Dict Stats) :=
  [("results_copy_small", [("sstr_copy_small", ⟨1, 0, 0, 0⟩)])]

/-- Concrete result-file entries in which the implementation name
`a_sstr` occurs twice (positions 0 and 2) around `b_sstr` (position 1). -/
def exDupEntries : List Entry :=
  [⟨"./build/a_sstr", 1, 0, 0, 0⟩,
   ⟨"./build/b_sstr", 2, 0, 0, 0⟩,
   ⟨"./build/a_sstr", 3, 0, 0, 0⟩]

/-- Two concrete result files with distinct name stems. -/
def exFiles : List (String × FileData) :=
  [("results_copy_small.json", ⟨[]⟩), ("results_append_big.json", ⟨[]⟩)]

/-- The same two files in the opposite enumeration order. -/
def exFilesRev : List (String × FileData) :=
  [("results_append_big.json", ⟨[]⟩), ("results_copy_small.json", ⟨[]⟩)]

end PlotBenchmarks


namespace PlotBenchmarks

theorem dictGet_dictInsert {β : Type} (k k' : String) (v : β) (d : Dict β) :
    dictGet k (dictInsert k' v d) = if k' = k then some v else dictGet k d := by
  induction d with
  | nil => simp [dictInsert, dictGet]
  | cons hd t ih =>
    obtain ⟨k'', v''⟩ := hd
    by_cases h1 : k'' = k' <;> by_cases h2 : k'' = k <;> by_cases h3 : k' = k <;>
      simp_all [dictInsert, dictGet]

theorem getLast?_cons_of_getLast? {α : Type} (a y : α) {l : List α}
    (h : l.getLast? = some y) : (a :: l).getLast? = some y := by
  rw [List.getLast?_cons, h]
  rfl

theorem dictGet_foldl_insert {α β : Type} (key : α → String) (val : α → β) :
    ∀ (xs : List α) (init : Dict β) (k : String),
      dictGet k (xs.foldl (fun d x => dictInsert (key x) (val x) d) init)
        = match (xs.filter (fun x => decide (key x = k))).getLast? with
          | some x => some (val x)
          | none => dictGet k init := by
  intro xs
  induction xs with
  | nil => intro init k; simp
  | cons x xs ih =>
    intro init k
    rw [List.foldl_cons, ih]
    by_cases hk : key x = k
    · rw [List.filter_cons_of_pos (by simpa using hk)]
      cases hfl : (xs.filter fun y => decide (key y = k)).getLast? with
      | some y =>
        simp [getLast?_cons_of_getLast? x y hfl]
      | none =>
        have hnil : xs.filter (fun y => decide (key y = k)) = [] :=
          List.getLast?_eq_none_iff.mp hfl
        simp [hnil, dictGet_dictInsert, hk]
    · rw [List.filter_cons_of_neg (by simpa using hk), dictGet_dictInsert,
        if_neg hk]

theorem dictInsert_of_not_mem {β : Type} (k : String) (v : β) :
    ∀ (d : Dict β), k ∉ d.map Prod.fst → dictInsert k v d = d ++ [(k, v)] := by
  intro d
  induction d with
  | nil => intro _; rfl
  | cons hd t ih =>
    intro h
    obtain ⟨k', v'⟩ := hd
    simp only [List.map_cons, List.mem_cons] at h
    push_neg at h
    have hne : ¬ k' = k := fun hh => h.1 hh.symm
    simp [dictInsert, hne, ih h.2]

theorem foldl_insert_keys {α β : Type} (key : α → String) (val : α → β) :
    ∀ (xs : List α) (init : Dict β),
      (∀ x ∈ xs, key x ∉ init.map Prod.fst) → (xs.map key).Nodup →
      (xs.foldl (fun d x => dictInsert (key x) (val x) d) init).map Prod.fst
        = init.map Prod.fst ++ xs.map key := by
  intro xs
  induction xs with
  | nil => intro init _ _; simp
  | cons x xs ih =>
    intro init hfresh hnd
    simp only [List.map_cons, List.nodup_cons] at hnd
    rw [List.foldl_cons,
      dictInsert_of_not_mem _ _ init (hfresh x (List.mem_cons_self x xs))]
    rw [ih (init ++ [(key x, val x)])]
    · simp
    · intro y hy
      simp only [List.map_append, List.mem_append]
      push_neg
      constructor
      · exact hfresh y (List.mem_cons_of_mem x hy)
      · simp only [List.map_cons, List.map_nil, List.mem_singleton]
        intro hcontra
        exact hnd.1 (hcontra ▸ List.mem_map_of_mem key hy)
    · exact hnd.2

theorem length_filter_le_one_of_nodup_map {α : Type} (key : α → String) :
    ∀ (xs : List α), (xs.map key).Nodup → ∀ k : String,
      (xs.filter (fun x => decide (key x = k))).length ≤ 1 := by
  intro xs
  induction xs with
  | nil => intro _ k; simp
  | cons x xs ih =>
    intro hnd k
    simp only [List.map_cons, List.nodup_cons] at hnd
    by_cases hk : key x = k
    · rw [List.filter_cons_of_pos (by simpa using hk)]
      have hnil : xs.filter (fun y => decide (key y = k)) = [] := by
        rw [List.filter_eq_nil_iff]
        intro y hy hpy
        have : key y = k := by simpa using hpy
        exact hnd.1 (by rw [← hk] at this; exact this ▸ List.mem_map_of_mem key hy)
      rw [hnil]
      simp
    · rw [List.filter_cons_of_neg (by simpa using hk)]
      exact ih hnd.2 k

theorem perm_eq_of_length_le_one {α : Type} {l l' : List α}
    (h : l.Perm l') (hlen : l'.length ≤ 1) : l = l' := by
  match l', hlen with
  | [], _ => exact h.eq_nil
  | [a], _ => exact List.perm_singleton.mp h

end PlotBenchmarks

namespace PlotBenchmarks

theorem pairFold_fst :
    ∀ (keys : List String) (p : Option String × Option String),
      (keys.foldl pairStep p).1
        = match (keys.filter (fun n => strContains n "sstr")).getLast? with
          | some n => some n
          | none => p.1 := by
  intro keys
  induction keys with
  | nil => intro p; simp
  | cons x keys ih =>
    intro p
    rw [List.foldl_cons, ih]
    by_cases h1 : strContains x "sstr"
    · cases hfl : (keys.filter fun n => strContains n "sstr").getLast? with
      | some y =>
        simp [List.filter_cons, h1, hfl, getLast?_cons_of_getLast? x y hfl]
      | none =>
        simp [List.filter_cons, h1, List.getLast?_eq_none_iff.mp hfl, pairStep]
    · by_cases h2 : strContains x "std" <;>
        cases hfl : (keys.filter fun n => strContains n "sstr").getLast? <;>
          simp [List.filter_cons, hfl, pairStep, h1, h2]

theorem pairFold_snd :
    ∀ (keys : List String) (p : Option String × Option String),
      (keys.foldl pairStep p).2
        = match (keys.filter
              (fun n => !strContains n "sstr" && strContains n "std")).getLast? with
          | some n => some n
          | none => p.2 := by
  intro keys
  induction keys with
  | nil => intro p; simp
  | cons x keys ih =>
    intro p
    rw [List.foldl_cons, ih]
    by_cases h1 : strContains x "sstr"
    · cases hfl : (keys.filter
          fun n => !strContains n "sstr" && strContains n "std").getLast? <;>
        simp [List.filter_cons, hfl, pairStep, h1]
    · by_cases h2 : strContains x "std"
      · cases hfl : (keys.filter
            fun n => !strContains n "sstr" && strContains n "std").getLast? with
        | some y =>
          simp [List.filter_cons, h1, h2, hfl, getLast?_cons_of_getLast? x y hfl]
        | none =>
          simp [List.filter_cons, h1, h2, List.getLast?_eq_none_iff.mp hfl,
            pairStep]
      · cases hfl : (keys.filter
            fun n => !strContains n "sstr" && strContains n "std").getLast? <;>
          simp [List.filter_cons, hfl, pairStep, h1, h2]

theorem splitMax_zero (c : Char) (l : List Char) : splitMax c 0 l = [l] := by
  cases l <;> rfl

theorem splitMax_chunk (c : Char) (n : Nat) :
    ∀ (a rest : List Char), c ∉ a →
      splitMax c (n + 1) (a ++ c :: rest) = a :: splitMax c n rest := by
  intro a
  induction a with
  | nil => intro rest _; simp [splitMax]
  | cons x a ih =>
    intro rest hmem
    simp only [List.mem_cons] at hmem
    push_neg at hmem
    have hx : ¬ x = c := fun hh => hmem.1 hh.symm
    simp only [List.cons_append, splitMax, hx, if_false]
    rw [List.append_eq, ih rest hmem.2]

theorem panelData_lengths (results : Dict (Dict Stats)) :
    ∀ benchmarks : List String,
      (panelData results benchmarks).1.length = benchmarks.length ∧
      (panelData results benchmarks).2.1.length
        = (benchmarks.filter (fun b => isPaired results b)).length ∧
      (panelData results benchmarks).2.2.length
        = (benchmarks.filter (fun b => isPaired results b)).length := by
  intro benchmarks
  induction benchmarks with
  | nil => simp [panelData]
  | cons b bs ih =>
    rcases hfp : findPair (((dictGet b results).getD []).map Prod.fst) with ⟨o1, o2⟩
    cases o1 <;> cases o2 <;>
      simp [panelData, hfp, isPaired, List.filter_cons, ih.1, ih.2.1, ih.2.2]

theorem lexLeCh_total : ∀ as bs : List Char,
    lexLeCh as bs = true ∨ lexLeCh bs as = true := by
  intro as
  induction as with
  | nil => intro bs; left; simp [lexLeCh]
  | cons a as ih =>
    intro bs
    cases bs with
    | nil => right; simp [lexLeCh]
    | cons b bs =>
      rcases Nat.lt_trichotomy a.toNat b.toNat with h | h | h
      · left; simp [lexLeCh, h]
      · rcases ih bs with h2 | h2
        · left; simp [lexLeCh, h, Nat.lt_irrefl, h2]
        · right; simp [lexLeCh, h, Nat.lt_irrefl, h2]
      · right; simp [lexLeCh, h]

theorem lexLeCh_trans : ∀ as bs cs : List Char,
    lexLeCh as bs = true → lexLeCh bs cs = true → lexLeCh as cs = true := by
  intro as
  induction as with
  | nil => intro bs cs _ _; simp [lexLeCh]
  | cons a as ih =>
    intro bs cs h1 h2
    cases bs with
    | nil => simp [lexLeCh] at h1
    | cons b bs =>
      cases cs with
      | nil => simp [lexLeCh] at h2
      | cons c cs =>
        by_cases hab : a.toNat < b.toNat <;> by_cases hbc : b.toNat < c.toNat
        · simp [lexLeCh, Nat.lt_trans hab hbc]
        · by_cases hcb : c.toNat < b.toNat
          · simp [lexLeCh, hbc, hcb] at h2
          · have hbceq : b.toNat = c.toNat :=
              Nat.le_antisymm (Nat.not_lt.mp hcb) (Nat.not_lt.mp hbc)
            simp [lexLeCh, hbceq ▸ hab]
        · by_cases hba : b.toNat < a.toNat
          · simp [lexLeCh, hab, hba] at h1
          · have habeq : a.toNat = b.toNat :=
              Nat.le_antisymm (Nat.not_lt.mp hba) (Nat.not_lt.mp hab)
            simp [lexLeCh, habeq ▸ hbc]
        · by_cases hba : b.toNat < a.toNat
          · simp [lexLeCh, hab, hba] at h1
          · by_cases hcb : c.toNat < b.toNat
            · simp [lexLeCh, hbc, hcb] at h2
            · have habeq : a.toNat = b.toNat :=
                Nat.le_antisymm (Nat.not_lt.mp hba) (Nat.not_lt.mp hab)
              have hbceq : b.toNat = c.toNat :=
                Nat.le_antisymm (Nat.not_lt.mp hcb) (Nat.not_lt.mp hbc)
              simp [lexLeCh, hab, hba, habeq, hbceq, Nat.lt_irrefl] at h1 h2 ⊢
              exact ih bs cs h1 h2

end PlotBenchmarks

namespace PlotBenchmarks

theorem getLast?_filter_mem {α : Type} (p : α → Bool) (l : List α) (a : α)
    (h : (l.filter p).getLast? = some a) : a ∈ l ∧ p a = true := by
  obtain ⟨ys, hys⟩ := List.getLast?_eq_some_iff.mp h
  have ha : a ∈ l.filter p := by
    rw [hys]
    simp
  exact ⟨(List.mem_filter.mp ha).1, (List.mem_filter.mp ha).2⟩

theorem diffPercent_of_ne (s d : ℚ) (hd : d ≠ 0) :
    diffPercent s d = Except.ok (((s - d) / d) * 100) := by
  simp [diffPercent, hd]

theorem annotate_of_ne (s d : ℚ) (hd : d ≠ 0) :
    annotate s d = Except.ok
      (format1f (((s - d) / d) * 100) ++ "%",
       if ((s - d) / d) * 100 < 0 then "green" else "red") := by
  simp [annotate, diffPercent, hd, Except.map]

theorem round1f_intCast (n : ℤ) : round1f ((n : ℚ)) = n * 10 := by
  have hx : ((n : ℚ)) * 10 = ((n * 10 : ℤ) : ℚ) := by push_cast; ring
  simp only [round1f, hx, Int.floor_intCast]
  norm_num

theorem format1f_neg50 : format1f (-50) = "-50.0" := by
  have h0 : ((-50 : ℚ)) = (((-50 : ℤ)) : ℚ) := by norm_num
  have h : round1f (-50) = -500 := by
    rw [h0, round1f_intCast]
    norm_num
  simp only [format1f, h]
  decide

theorem format1f_100 : format1f 100 = "100.0" := by
  have h0 : ((100 : ℚ)) = (((100 : ℤ)) : ℚ) := by norm_num
  have h : round1f 100 = 1000 := by
    rw [h0, round1f_intCast]
    norm_num
  simp only [format1f, h]
  decide

theorem format1f_zero : format1f 0 = "0.0" := by
  have h0 : ((0 : ℚ)) = (((0 : ℤ)) : ℚ) := by norm_num
  have h : round1f 0 = 0 := by
    rw [h0, round1f_intCast]
    norm_num
  simp only [format1f, h]
  decide

theorem annotate_one_two : annotate 1 2 = Except.ok ("-50.0%", "green") := by
  rw [annotate_of_ne 1 2 (by norm_num)]
  have hv : (((1 : ℚ) - 2) / 2) * 100 = -50 := by norm_num
  rw [hv, format1f_neg50]
  norm_num
  decide

theorem annotate_two_one : annotate 2 1 = Except.ok ("100.0%", "red") := by
  rw [annotate_of_ne 2 1 (by norm_num)]
  have hv : (((2 : ℚ) - 1) / 1) * 100 = 100 := by norm_num
  rw [hv, format1f_100]
  norm_num
  decide

end PlotBenchmarks

namespace PlotBenchmarks

theorem panelAnnotations_exNeg :
    panelAnnotations exNeg ["results_copy_small"] = Except.ok [("-50.0%", "green")] := by
  simp +decide [panelAnnotations, panelData, exNeg, dictGet, findPair, pairStep,
    labelOf, splitMax, annotateList, annotate_one_two]

theorem panelAnnotations_exSwap :
    panelAnnotations exSwap ["results_copy_small"] = Except.ok [("100.0%", "red")] := by
  simp +decide [panelAnnotations, panelData, exSwap, dictGet, findPair, pairStep,
    labelOf, splitMax, annotateList, annotate_two_one]

theorem panelAnnotations_exZero :
    panelAnnotations exZero ["results_copy_zero"] = Except.error "ZeroDivisionError" := by
  simp +decide [panelAnnotations, panelData, exZero, dictGet, findPair, pairStep,
    labelOf, splitMax, annotateList, annotate, diffPercent, Except.map]

end PlotBenchmarks

namespace PlotBenchmarks

theorem dictGet_foldl_insert_nil {α β : Type} (key : α → String) (val : α → β)
    (xs : List α) (k : String) :
    dictGet k (xs.foldl (fun d x => dictInsert (key x) (val x) d) [])
      = ((xs.filter (fun x => decide (key x = k))).getLast?).map val := by
  rw [dictGet_foldl_insert]
  cases (xs.filter fun x => decide (key x = k)).getLast? <;> simp [dictGet]

/-- Claim C1, counterexample: for a group whose implementations contain an
sstr match but no std match, the two mean series get no entry, but the x-axis
label list still gets one (the label is appended before the pairing check),
so the label list is strictly longer than the series. -/
theorem C1_counterexample :
    (panelData exOnlySstr ["results_copy_small"]).1 = ["small"] ∧
    (panelData exOnlySstr ["results_copy_small"]).2.1 = [] ∧
    (panelData exOnlySstr ["results_copy_small"]).2.2 = [] := by
  decide

/-- Claim C1, amended: a group lacking an sstr or std match contributes no
entry to either mean series (their lengths equal the number of paired groups,
and always equal each other), but its x-axis label is appended
unconditionally, so the label list length equals the number of groups in the
category list, not the series length. -/
theorem C1_series_skip_but_labels_stay (results : Dict (Dict Stats))
    (benchmarks : List String) :
    (panelData results benchmarks).1.length = benchmarks.length ∧
    (panelData results benchmarks).2.1.length
      = (benchmarks.filter (fun b => isPaired results b)).length ∧
    (panelData results benchmarks).2.2.length
      = (benchmarks.filter (fun b => isPaired results b)).length :=
  panelData_lengths results benchmarks

/-- Claim C2: the sstr slot only ever holds a name containing `sstr`; the std
slot only ever holds a name that does not contain `sstr` but contains `std`
(the `std` test is applied only to names that failed the `sstr` test); a name
containing both substrings resolves to the sstr slot. -/
theorem C2_substring_precedence (keys : List String) (n m : String)
    (h1 : (findPair keys).1 = some n) (h2 : (findPair keys).2 = some m) :
    strContains n "sstr" = true ∧
    strContains m "sstr" = false ∧ strContains m "std" = true ∧
    findPair ["my_sstr_std_impl"] = (some "my_sstr_std_impl", none) := by
  simp only [findPair] at h1 h2
  rw [pairFold_fst] at h1
  rw [pairFold_snd] at h2
  have hn : (keys.filter (fun x => strContains x "sstr")).getLast? = some n := by
    cases hfl : (keys.filter fun x => strContains x "sstr").getLast? with
    | none => rw [hfl] at h1; simp at h1
    | some y =>
      rw [hfl] at h1
      simp at h1
      rw [h1]
  have hm : (keys.filter
      (fun x => !strContains x "sstr" && strContains x "std")).getLast? = some m := by
    cases hfl : (keys.filter
        fun x => !strContains x "sstr" && strContains x "std").getLast? with
    | none => rw [hfl] at h2; simp at h2
    | some y =>
      rw [hfl] at h2
      simp at h2
      rw [h2]
  have hnp := (getLast?_filter_mem _ keys n hn).2
  have hmp := (getLast?_filter_mem _ keys m hm).2
  simp only [Bool.and_eq_true, Bool.not_eq_true'] at hmp
  exact ⟨hnp, hmp.1, hmp.2, by decide⟩

/-- Claim C2, witness. -/
theorem C2_witness :
    (findPair ["my_sstr_std_impl", "x_std"]).1 = some "my_sstr_std_impl" ∧
    (findPair ["my_sstr_std_impl", "x_std"]).2 = some "x_std" ∧
    (strContains "my_sstr_std_impl" "sstr" = true ∧
     strContains "x_std" "sstr" = false ∧ strContains "x_std" "std" = true ∧
     findPair ["my_sstr_std_impl"] = (some "my_sstr_std_impl", none)) :=
  ⟨by decide, by decide,
   C2_substring_precedence ["my_sstr_std_impl", "x_std"] "my_sstr_std_impl"
     "x_std" (by decide) (by decide)⟩

/-- Claim C3, counterexample: with the means swapped (sstr 0.0020 s, std
0.0010 s) the annotation computed by the code is `100.0%` in red — not the
`+50.0%` stated by the claim (the percentage difference is relative to the
std mean, so swapping does not negate it, and the format string emits no
plus sign). -/
theorem C3_counterexample :
    panelAnnotations exSwap ["results_copy_small"] = Except.ok [("100.0%", "red")] :=
  panelAnnotations_exSwap

/-- Claim C3, amended: sstr mean 0.0010 s and std mean 0.0020 s yield the
annotation `-50.0%` in green; the swapped means yield `100.0%` in red. -/
theorem C3_percent_annotations :
    panelAnnotations exNeg ["results_copy_small"] = Except.ok [("-50.0%", "green")] ∧
    panelAnnotations exSwap ["results_copy_small"] = Except.ok [("100.0%", "red")] :=
  ⟨panelAnnotations_exNeg, panelAnnotations_exSwap⟩

/-- Claim C4: for a retained pair the annotation is
`((sstr_ms - std_ms) / std_ms) * 100` over the millisecond-converted means,
formatted to one decimal with a `%` suffix, colored green exactly when the
difference is strictly negative and red otherwise — including when the two
means are exactly equal. -/
theorem C4_percentage_formula (s d : ℚ) (hd : d ≠ 0) :
    annotate s d = Except.ok
      (format1f (((s - d) / d) * 100) ++ "%",
       if ((s - d) / d) * 100 < 0 then "green" else "red") ∧
    (s = d → annotate s d = Except.ok ("0.0%", "red")) := by
  refine ⟨annotate_of_ne s d hd, ?_⟩
  intro hsd
  subst hsd
  rw [annotate_of_ne s s hd]
  have hv : (((s : ℚ) - s) / s) * 100 = 0 := by
    rw [sub_self, zero_div, zero_mul]
  rw [hv, format1f_zero]
  norm_num
  decide

/-- Claim C4, witness. -/
theorem C4_witness :
    ((2 : ℚ) ≠ 0) ∧
    (annotate 3 2 = Except.ok
        (format1f ((((3 : ℚ) - 2) / 2) * 100) ++ "%",
         if (((3 : ℚ) - 2) / 2) * 100 < 0 then "green" else "red") ∧
     ((3 : ℚ) = 2 → annotate 3 2 = Except.ok ("0.0%", "red"))) :=
  ⟨by norm_num, C4_percentage_formula 3 2 (by norm_num)⟩

/-- Claim C5: a retained group whose std mean is exactly zero makes the
percentage-difference computation fail with the division-by-zero error; it
never returns a value to be drawn into the plot. -/
theorem C5_zero_division (s : ℚ) :
    diffPercent s 0 = Except.error "ZeroDivisionError" ∧
    panelAnnotations exZero ["results_copy_zero"] = Except.error "ZeroDivisionError" :=
  ⟨by simp [diffPercent], panelAnnotations_exZero⟩

/-- Claim C6: loading result files with pairwise-distinct name stems produces
a mapping whose key list is exactly the list of stems (one per file, so
exactly N keys), and whose lookups are identical for every enumeration order
of the files. -/
theorem C6_round_trip_grouping (files files2 : List (String × FileData))
    (hnd : (files.map (fun f => benchName f.1)).Nodup)
    (hperm : files2.Perm files) :
    (load_benchmark_results files).map Prod.fst
        = files.map (fun f => benchName f.1) ∧
    (load_benchmark_results files).length = files.length ∧
    ∀ k : String, dictGet k (load_benchmark_results files2)
        = dictGet k (load_benchmark_results files) := by
  have hkeys : (load_benchmark_results files).map Prod.fst
      = files.map (fun f => benchName f.1) := by
    have h := foldl_insert_keys (fun f : String × FileData => benchName f.1)
      (fun f => buildBenchmarkData f.2.results) files [] (by simp) hnd
    simpa [load_benchmark_results] using h
  refine ⟨hkeys, ?_, ?_⟩
  · have h := congrArg List.length hkeys
    simpa using h
  · intro k
    have h1 : dictGet k (load_benchmark_results files)
        = ((files.filter (fun f => decide (benchName f.1 = k))).getLast?).map
            (fun f => buildBenchmarkData f.2.results) :=
      dictGet_foldl_insert_nil (fun f : String × FileData => benchName f.1)
        (fun f => buildBenchmarkData f.2.results) files k
    have h2 : dictGet k (load_benchmark_results files2)
        = ((files2.filter (fun f => decide (benchName f.1 = k))).getLast?).map
            (fun f => buildBenchmarkData f.2.results) :=
      dictGet_foldl_insert_nil (fun f : String × FileData => benchName f.1)
        (fun f => buildBenchmarkData f.2.results) files2 k
    have hfilters : files2.filter (fun f => decide (benchName f.1 = k))
        = files.filter (fun f => decide (benchName f.1 = k)) :=
      perm_eq_of_length_le_one (hperm.filter _)
        (length_filter_le_one_of_nodup_map _ files hnd k)
    rw [h1, h2, hfilters]

/-- Claim C6, witness. -/
theorem C6_witness :
    ((exFiles.map (fun f => benchName f.1)).Nodup) ∧
    exFilesRev.Perm exFiles ∧
    ((load_benchmark_results exFiles).map Prod.fst
        = exFiles.map (fun f => benchName f.1) ∧
     (load_benchmark_results exFiles).length = exFiles.length ∧
     ∀ k : String, dictGet k (load_benchmark_results exFilesRev)
        = dictGet k (load_benchmark_results exFiles)) :=
  ⟨by decide, by decide,
   C6_round_trip_grouping exFiles exFilesRev (by decide) (by decide)⟩

/-- Claim C7: the x-axis label of a group name is obtained by splitting on
`_` with at most two splits and keeping the final chunk: for any name of the
form `a_b_rest` with `a` and `b` underscore-free, the label is `rest`
verbatim (including any further underscores); concretely
`results_copy_small` yields `small` and `results_format_large_extra` yields
`large_extra`. -/
theorem C7_label_derivation (a b c : List Char) (ha : '_' ∉ a) (hb : '_' ∉ b) :
    (splitMax '_' 2 (a ++ '_' :: (b ++ '_' :: c))).getLastD [] = c ∧
    labelOf "results_copy_small" = "small" ∧
    labelOf "results_format_large_extra" = "large_extra" := by
  refine ⟨?_, by decide, by decide⟩
  have h2 : splitMax '_' 2 (a ++ '_' :: (b ++ '_' :: c))
      = a :: splitMax '_' 1 (b ++ '_' :: c) :=
    splitMax_chunk '_' 1 a (b ++ '_' :: c) ha
  have h1 : splitMax '_' 1 (b ++ '_' :: c) = b :: splitMax '_' 0 c :=
    splitMax_chunk '_' 0 b c hb
  rw [h2, h1, splitMax_zero]
  rfl

/-- Claim C7, witness. -/
theorem C7_witness :
    ('_' ∉ "results".toList) ∧ ('_' ∉ "copy".toList) ∧
    ((splitMax '_' 2
        ("results".toList ++ '_' :: ("copy".toList ++ '_' :: "small".toList))).getLastD []
          = "small".toList ∧
     labelOf "results_copy_small" = "small" ∧
     labelOf "results_format_large_extra" = "large_extra") :=
  ⟨by decide, by decide,
   C7_label_derivation "results".toList "copy".toList "small".toList
     (by decide) (by decide)⟩

/-- Claim C8: the comparison routine sorts the group names lexicographically
and partitions them into the three category lists by prefix test; each
category list is a filter of the sorted list (hence itself sorted), its
membership is exactly the names with the corresponding prefix, and a name
matching none of the three prefixes belongs to no category list (and the
routine is total — no error is raised for it). -/
theorem C8_sorted_category_partition (results : Dict (Dict Stats)) (b : String) :
    List.Sorted strLe (sortedBenchmarks results) ∧
    (sortedBenchmarks results).Perm (benchKeys results) ∧
    List.Sorted strLe (copy_benchmarks results) ∧
    List.Sorted strLe (append_benchmarks results) ∧
    List.Sorted strLe (format_benchmarks results) ∧
    (b ∈ copy_benchmarks results ↔
      b ∈ benchKeys results ∧ pyStartswith b "results_copy" = true) ∧
    (b ∈ append_benchmarks results ↔
      b ∈ benchKeys results ∧ pyStartswith b "results_append" = true) ∧
    (b ∈ format_benchmarks results ↔
      b ∈ benchKeys results ∧ pyStartswith b "results_format" = true) := by
  haveI : IsTotal String strLe := ⟨fun x y => lexLeCh_total x.toList y.toList⟩
  haveI : IsTrans String strLe := ⟨fun x y z => lexLeCh_trans x.toList y.toList z.toList⟩
  have hsorted : List.Sorted strLe (sortedBenchmarks results) :=
    List.sorted_insertionSort strLe (benchKeys results)
  have hperm : (sortedBenchmarks results).Perm (benchKeys results) :=
    List.perm_insertionSort strLe (benchKeys results)
  refine ⟨hsorted, hperm, hsorted.filter _, hsorted.filter _, hsorted.filter _,
    ?_, ?_, ?_⟩
  · simp [copy_benchmarks, List.mem_filter, hperm.mem_iff]
  · simp [append_benchmarks, List.mem_filter, hperm.mem_iff]
  · simp [format_benchmarks, List.mem_filter, hperm.mem_iff]

/-- Claim C9: within one group, the mapping built from the file entries holds,
for each implementation display name, the four statistics of the last entry
in the results sequence deriving that name — a later entry silently
overwrites an earlier one with the same derived name.  Concretely, with
`a_sstr` occurring at positions 0 (mean 1) and 2 (mean 3), the stored mean is
3. -/
theorem C9_duplicate_name_overwrite (entries : List Entry) (name : String) :
    (dictGet name (buildBenchmarkData entries)
      = ((entries.filter
            (fun e => decide (implName e.command = name))).getLast?).map entryStats) ∧
    dictGet "a_sstr" (buildBenchmarkData exDupEntries) = some ⟨3, 0, 0, 0⟩ := by
  constructor
  · exact dictGet_foldl_insert_nil (fun e : Entry => implName e.command)
      entryStats entries name
  · decide

/-- Claim C10, counterexample: with entries deriving names `a_sstr`,
`b_sstr`, `a_sstr` (in that order), the mapping's iteration order keeps
`a_sstr` at its first-insertion position, so the sstr slot ends up holding
`b_sstr` — while the latest sstr-qualifying entry of the results sequence is
the final `a_sstr` one.  The two descriptions identified by the claim
therefore disagree. -/
theorem C10_counterexample :
    (findPair ((buildBenchmarkData exDupEntries).map Prod.fst)).1 = some "b_sstr" ∧
    ((exDupEntries.filter
        (fun e => strContains (implName e.command) "sstr")).getLast?).map
          (fun e => implName e.command) = some "a_sstr" := by
  decide

/-- Claim C10, amended: the sstr slot holds the last name containing `sstr`
in the group mapping's iteration order (the order of first insertion of each
name), and the std slot the last name, in that order, not containing `sstr`
but containing `std`; this coincides with the latest qualifying entry of the
results sequence only when no duplicate derived names occur. -/
theorem C10_last_in_iteration_order (keys : List String) :
    (findPair keys).1 = (keys.filter (fun x => strContains x "sstr")).getLast? ∧
    (findPair keys).2 = (keys.filter
        (fun x => !strContains x "sstr" && strContains x "std")).getLast? := by
  constructor
  · simp only [findPair]
    rw [pairFold_fst]
    cases hfl : (keys.filter fun x => strContains x "sstr").getLast? <;> simp [hfl]
  · simp only [findPair]
    rw [pairFold_snd]
    cases hfl : (keys.filter
        fun x => !strContains x "sstr" && strContains x "std").getLast? <;>
      simp [hfl]

end PlotBenchmarks
